import Mathlib

/-!
Verification development for the stateful-migration operator.

The definitions below are a shallow embedding of the Go sources:
  * `internal/controller/checkpointbackup_controller.go` (Checkpoint Engine),
  * `internal/webhook/admission_webhook.go` (controller-runtime pod mutator),
  * `Mutation/webhook-server/main.go` (standalone mutating webhook server),
  * the `MigrationRestoreReconciler` (Restore Orchestrator).

External effects (kubelet HTTP calls, filesystem, buildah subprocesses,
registry pushes, pod deletion) are modelled by an environment record whose
fields give the outcome of each external call; Kubernetes status updates are
modelled as always succeeding (the optimistic-concurrency retry loop of the
source collapses when there is no concurrent writer).  Observable API writes
are counted in an effect record.
-/

namespace SMO

/-- A container entry of a CheckpointBackup spec (`migrationv1.Container`). -/
structure ContainerSpec where
  name : String
  image : String
  deriving DecidableEq

/-- A container of a pod spec (name and current image). -/
structure PodContainer where
  name : String
  image : String
  deriving DecidableEq

/-- The slice of a pod the controller reads: scheduled node, running flag,
and the container list of its spec. -/
structure Pod where
  nodeName : String
  running : Bool
  containers : List PodContainer
  deriving DecidableEq

/-- `migrationv1.PodRef`. -/
structure PodRef where
  ns : String
  name : String
  deriving DecidableEq

/-- `migrationv1.ResourceRef` (apiVersion, kind, name, namespace). -/
structure ResourceRef where
  apiVersion : String
  kind : String
  name : String
  ns : String
  deriving DecidableEq

/-- `migrationv1.Registry`: only the URL matters for the embedded logic. -/
structure Registry where
  url : String
  deriving DecidableEq

/-- `migrationv1.CheckpointFile` status entry. -/
structure CheckpointFile where
  containerName : String
  filePath : String
  deriving DecidableEq

/-- `migrationv1.BuiltImage` status entry (the spec calls it CapturedImage). -/
structure BuiltImage where
  containerName : String
  imageName : String
  pushed : Bool
  deriving DecidableEq

/-- `migrationv1.CheckpointBackupStatus`.  `lastCheckpointTime` is an abstract
timestamp; the source only tests it against nil. -/
structure BackupStatus where
  phase : String := ""
  message : String := ""
  lastCheckpointTime : Option Nat := none
  checkpointFiles : List CheckpointFile := []
  builtImages : List BuiltImage := []
  deriving DecidableEq

/-- `migrationv1.CheckpointBackupSpec`. -/
structure BackupSpec where
  schedule : String
  stopPod : Option Bool := none
  podRef : PodRef
  resourceRef : ResourceRef
  registry : Option Registry := none
  containers : List ContainerSpec := []
  deriving DecidableEq

/-- A CheckpointBackup object: identity, metadata, spec and status. -/
structure Backup where
  name : String
  ns : String
  finalizers : List String := []
  deletionTimestamp : Option Nat := none
  spec : BackupSpec
  status : BackupStatus := {}
  deriving DecidableEq

/-! ## Image Rewriting Admission: controller-runtime PodMutator
(`internal/webhook/admission_webhook.go`) -/

/-- The slice of an admitted pod the webhooks read. -/
structure AdmPod where
  name : String
  generateName : String
  containers : List PodContainer
  initContainers : List PodContainer := []
  deriving DecidableEq

/-- A JSON-Patch replace operation on `/spec/containers/{idx}/image`
(or `/spec/initContainers/{idx}/image` when `onInit` is true). -/
structure Patch where
  idx : Nat
  value : String
  onInit : Bool := false
  deriving DecidableEq

/-- Association-list lookup, mirroring a Go map read
(`v, ok := m[k]`: the single binding for the key, if any). -/
def lookupA (m : List (String × String)) (k : String) : Option String :=
  (m.find? (fun p => p.1 == k)).map (fun p => p.2)

/-- Association-list update, mirroring a Go map assignment `m[k] = v`. -/
def insertA (m : List (String × String)) (k v : String) : List (String × String) :=
  if (m.find? (fun p => p.1 == k)).isSome then
    m.map (fun p => if p.1 == k then (k, v) else p)
  else
    m ++ [(k, v)]

/-- `strings.HasPrefix` of Go, executable in the kernel: the character list
of the prefix is an initial segment of the character list of the string. -/
def hasPrefixB (s p : String) : Bool := p.data.isPrefixOf s.data

/-- `PodMutator.doesResourceRefMatchJob`. -/
def doesResourceRefMatchJob (ref : ResourceRef) (jobName ns : String) : Bool :=
  if ref.kind == "Job" && ref.apiVersion == "batch/v1" then
    let refNs := if ref.ns == "" then ns else ref.ns
    ref.name == jobName && refNs == ns
  else if ref.kind == "CronJob" && ref.apiVersion == "batch/v1" then
    hasPrefixB jobName (ref.name ++ "-")
  else
    false

/-- `PodMutator.findMatchingCheckpointBackup`: the Go loop returns the first
backup in list order whose resourceRef matches the Job. -/
def findMatchingCheckpointBackup (backups : List Backup) (jobName ns : String) :
    Option Backup :=
  backups.find? (fun b => doesResourceRefMatchJob b.spec.resourceRef jobName ns)

/-- The image map built by `PodMutator.generateImagePatches`: first from
`spec.containers` (nonempty images), then from `status.builtImages` for
container names not yet mapped. -/
def buildImageMapPM (b : Backup) : List (String × String) :=
  let m := b.spec.containers.foldl
    (fun m c => if c.image != "" then insertA m c.name c.image else m) []
  b.status.builtImages.foldl
    (fun m bi =>
      if (lookupA m bi.containerName).isNone && bi.imageName != "" then
        insertA m bi.containerName bi.imageName
      else m) m

/-- `PodMutator.generateImagePatches`: one replace patch per pod container
whose name is in the image map.  Note the source performs no comparison with
the container's current image. -/
def generateImagePatches (pod : AdmPod) (b : Backup) : List Patch :=
  (pod.containers.enum).filterMap
    (fun ic =>
      match lookupA (buildImageMapPM b) ic.2.name with
      | some img => some { idx := ic.1, value := img }
      | none => none)

/-- The patch-producing part of `PodMutator.Handle`: find the first matching
backup; if none, no patches; else generate the image patches from it. -/
def podMutatorPatches (pod : AdmPod) (backups : List Backup) (jobName ns : String) :
    List Patch :=
  match findMatchingCheckpointBackup backups jobName ns with
  | none => []
  | some b => generateImagePatches pod b

/-! ## Image Rewriting Admission: standalone webhook server
(`Mutation/webhook-server/main.go`, `handleMutate`) -/

/-- The spec fields of a CheckpointRestore object read by `handleMutate`. -/
structure CRSpec where
  podName : String := ""
  podGenerateName : String := ""
  containers : List ContainerSpec := []
  image : String := ""
  deriving DecidableEq

/-- A CheckpointRestore list item. -/
structure CRItem where
  name : String
  spec : CRSpec
  deriving DecidableEq

/-- The name-match condition of `handleMutate`. -/
def wsNameMatch (pod : AdmPod) (sp : CRSpec) : Bool :=
  (pod.name != "" && sp.podName == pod.name) ||
  (pod.generateName != "" && sp.podGenerateName != "" &&
    hasPrefixB sp.podGenerateName pod.generateName) ||
  (pod.generateName != "" && sp.podName != "" &&
    hasPrefixB sp.podName pod.generateName)

/-- Building `(imageMap, defaultImage)` from one matched CheckpointRestore:
`spec.containers[]` entries with nonempty image populate the map (and the
first nonempty image seeds the default); `spec.image` is the fallback
default. -/
def wsBuildFromCR (sp : CRSpec) : List (String × String) × String :=
  let md := sp.containers.foldl
    (fun (md : List (String × String) × String) c =>
      if c.image == "" then md
      else
        ((if c.name != "" then insertA md.1 c.name c.image else md.1),
         (if md.2 == "" then c.image else md.2)))
    ([], "")
  if md.2 == "" && sp.image != "" then (md.1, sp.image) else md

/-- The Go loop over the CheckpointRestore list: skip non-matching items and
break after building the map from the first matching one. -/
def wsFirstMatchMap (pod : AdmPod) : List CRItem → List (String × String) × String
  | [] => ([], "")
  | it :: rest =>
      if wsNameMatch pod it.spec then wsBuildFromCR it.spec
      else wsFirstMatchMap pod rest

/-- The patches `handleMutate` emits for the regular containers:
desired image is the mapped one, falling back to the default; containers with
no desired image or whose current image already equals it are skipped. -/
def wsContainerPatches (m : List (String × String)) (d : String)
    (cs : List PodContainer) (onInit : Bool) : List Patch :=
  cs.enum.filterMap
    (fun ic =>
      let want0 := (lookupA m ic.2.name).getD ""
      let want := if want0 == "" then d else want0
      if want == "" || ic.2.image == want then none
      else some { idx := ic.1, value := want, onInit := onInit })

/-- `handleMutate`: build the map from the first matching CheckpointRestore,
then patch containers and init containers. -/
def wsMutatePatches (pod : AdmPod) (items : List CRItem) : List Patch :=
  let md := wsFirstMatchMap pod items
  if md.1.isEmpty && md.2 == "" then []
  else
    wsContainerPatches md.1 md.2 pod.containers false ++
    wsContainerPatches md.1 md.2 pod.initContainers true

/-! ## Restore Orchestrator (`MigrationRestoreReconciler`) -/

/-- A Karmada ResourceBinding: the referenced resource and the clusters it is
currently bound to. -/
structure ResourceBinding where
  resource : ResourceRef
  clusters : List String
  deriving DecidableEq

/-- The subset of a StatefulMigration spec the restore path reads. -/
structure Migration where
  resourceRef : ResourceRef
  sourceClusters : List String
  deriving DecidableEq

/-- Field-by-field resource equality as written in the Go source. -/
def refMatches (a b : ResourceRef) : Bool :=
  a.apiVersion == b.apiVersion && a.kind == b.kind &&
  a.name == b.name && a.ns == b.ns

/-- `MigrationRestoreReconciler.findResourceBinding`: the first binding whose
resource matches AND whose cluster list still contains the source cluster;
otherwise a not-found error (modelled as `none`). -/
def findResourceBinding (bindings : List ResourceBinding) (ref : ResourceRef)
    (sourceCluster : String) : Option ResourceBinding :=
  bindings.find? (fun b =>
    refMatches b.resource ref && b.clusters.contains sourceCluster)

/-- `MigrationRestoreReconciler.isSourceClusterStillAvailable`. -/
def isSourceClusterStillAvailable (b : ResourceBinding) (sourceCluster : String) :
    Bool :=
  b.clusters.contains sourceCluster

/-- `MigrationRestoreReconciler.findCheckpointBackups`: backups whose
resourceRef matches the migration and whose pod namespace equals the
resource namespace. -/
def findCheckpointBackups (backups : List Backup) (ref : ResourceRef) :
    List Backup :=
  backups.filter (fun b =>
    refMatches b.spec.resourceRef ref && b.spec.podRef.ns == ref.ns)

/-- `MigrationRestoreReconciler.createCheckpointRestore`: the restore name is
`{backupName}-restore`; creation is skipped when an object of that name
already exists. -/
def createCheckpointRestore (existingRestores : List String) (b : Backup) :
    Option String :=
  let restoreName := b.name ++ "-restore"
  if existingRestores.contains restoreName then none else some restoreName

/-- The RestoreRequest names created by one `processSourceCluster` pass:
nothing when the binding lookup fails or the source cluster is still bound;
otherwise one `-restore` object per matching backup, idempotently. -/
def processSourceCluster (bindings : List ResourceBinding) (backups : List Backup)
    (existingRestores : List String) (mig : Migration) (sourceCluster : String) :
    List String :=
  match findResourceBinding bindings mig.resourceRef sourceCluster with
  | none => []
  | some b =>
      if isSourceClusterStillAvailable b sourceCluster then []
      else
        (findCheckpointBackups backups mig.resourceRef).filterMap
          (createCheckpointRestore existingRestores)

/-- The target-cluster choice of
`MigrationRestoreReconciler.createRestorePropagationPolicy`: the Go loop
assigns the first element of `sourceClusters` and breaks immediately; an empty
list is an error. -/
def chooseTargetCluster (sourceClusters : List String) : Except String String :=
  match sourceClusters.headD "" with
  | "" => .error "no target cluster available for restore"
  | c => .ok c

/-! ## Checkpoint Engine (`CheckpointBackupReconciler`) -/

/-- `CheckpointBackupFinalizer`. -/
def CheckpointBackupFinalizer : String :=
  "checkpointbackup.migration.dcnlab.com/finalizer"

/-- `CheckpointBasePath`. -/
def CheckpointBasePath : String := "/var/lib/kubelet/checkpoints"

/-- Absolute path of a checkpoint file (`filepath.Join(CheckpointBasePath, p)`). -/
def fullPath (p : String) : String := CheckpointBasePath ++ "/" ++ p

/-- Observable side effects of a reconciliation. -/
structure Eff where
  statusWrites : Nat := 0
  metaWrites : Nat := 0
  podDeleted : Bool := false
  deletedFiles : List String := []
  pushAttempts : Nat := 0
  pipelineRuns : Nat := 0
  deriving DecidableEq

/-- Reconciler state: the backup object (as persisted), the keys of the
cron scheduler map `scheduledJobs`, and the accumulated effects. -/
structure RState where
  backup : Backup
  jobs : List String := []
  eff : Eff := {}
  deriving DecidableEq

/-- Environment of one reconciliation: this CE instance's node identity and
the outcome of every external interaction. -/
structure CEEnv where
  nodeName : String
  pod : Option Pod
  checkpointResult : String → Except String String
  diskFiles : List String
  findFile : String → Except String String
  buildResult : String → Except String Unit
  registryClient : Option Registry
  loginResult : Except String Unit
  pushCmdResult : String → Except String Unit
  deletePodResult : Except String Unit
  now : String
  cronValid : Bool := true

/-- `types.NamespacedName.String()` key used for the scheduled-jobs map. -/
def backupKey (b : Backup) : String := b.ns ++ "/" ++ b.name

/-- `CheckpointBackupReconciler.shouldStopPod`. -/
def shouldStopPod (b : Backup) : Bool := b.spec.stopPod.getD false

/-- `CheckpointBackupReconciler.getCheckpointFilePath`. -/
def getCheckpointFilePath (b : Backup) (containerName : String) : Option String :=
  (b.status.checkpointFiles.find? (fun f => f.containerName == containerName)).map
    (fun f => f.filePath)

/-- `CheckpointBackupReconciler.updatePhase`: set phase and message on the
status (the conflict-retry loop always succeeds in this model). -/
def updatePhase (s : RState) (phase message : String) : RState :=
  { s with
    backup.status.phase := phase
    backup.status.message := message
    eff.statusWrites := s.eff.statusWrites + 1 }

/-- `CheckpointBackupReconciler.recordCheckpointFile`: append unless an entry
with the same container name and file path is already recorded. -/
def recordCheckpointFile (s : RState) (containerName checkpointPath : String) :
    RState :=
  if s.backup.status.checkpointFiles.any
      (fun f => f.containerName == containerName && f.filePath == checkpointPath) then
    s
  else
    { s with
      backup.status.checkpointFiles :=
        s.backup.status.checkpointFiles ++
          [{ containerName := containerName, filePath := checkpointPath }]
      eff.statusWrites := s.eff.statusWrites + 1 }

/-- `CheckpointBackupReconciler.recordBuiltImage`: append unless an entry with
the same container name and image name is already recorded. -/
def recordBuiltImage (s : RState) (containerName imageName : String)
    (pushed : Bool) : RState :=
  if s.backup.status.builtImages.any
      (fun bi => bi.containerName == containerName && bi.imageName == imageName) then
    s
  else
    { s with
      backup.status.builtImages :=
        s.backup.status.builtImages ++
          [{ containerName := containerName, imageName := imageName, pushed := pushed }]
      eff.statusWrites := s.eff.statusWrites + 1 }

/-- `CheckpointBackupReconciler.deleteCheckpointFile` (records the removal). -/
def deleteCheckpointFile (s : RState) (path : String) : RState :=
  { s with eff.deletedFiles := s.eff.deletedFiles ++ [path] }

/-- Image-name resolution of `checkpointContainer` (step 3 in the source):
the request-supplied image is used only when a registry is configured and the
supplied image is nonempty; otherwise a localhost name is synthesized. -/
def resolveImageName (b : Backup) (c : ContainerSpec) (now : String) : String :=
  if b.spec.registry.isNone || c.image == "" then
    "localhost/checkpoint-" ++ b.spec.podRef.name ++ "-" ++ c.name ++ ":" ++ now
  else
    c.image

/-- `CheckpointBackupReconciler.findCheckpointFile`: the expected path wins if
it exists; otherwise the filesystem scan (most recent / lexicographically last
match), modelled as the environment oracle `findFile`. -/
def findCheckpointFile (env : CEEnv) (containerName expectedPath : String) :
    Except String String :=
  if env.diskFiles.contains (fullPath expectedPath) then .ok expectedPath
  else env.findFile containerName

/-- Step 1.5 of `checkpointContainer`: verify the recorded path on disk, fall
back to `findCheckpointFile` when it is missing. -/
def verifyPath (env : CEEnv) (containerName checkpointPath : String) :
    Except String String :=
  if env.diskFiles.contains (fullPath checkpointPath) then .ok checkpointPath
  else
    match findCheckpointFile env containerName checkpointPath with
    | .error e => .error ("failed to find checkpoint file after creation: " ++ e)
    | .ok p => .ok p

/-- Step 2 of `checkpointContainer`: the base image is the image of the pod
container with the matching name; missing or empty is an error. -/
def ccBaseImage (pod : Pod) (c : ContainerSpec) : Except String String :=
  match pod.containers.find? (fun pc => pc.name == c.name) with
  | some pc =>
      if pc.image == "" then
        .error ("could not find base image for container " ++ c.name)
      else .ok pc.image
  | none => .error ("could not find base image for container " ++ c.name)

/-- `CheckpointBackupReconciler.buildCheckpointImage`: re-verify the artifact
exists, then run the buildah pipeline (outcome from the environment). -/
def buildCheckpointImage (env : CEEnv) (checkpointPath imageName : String) :
    Except String Unit :=
  if env.diskFiles.contains (fullPath checkpointPath) then env.buildResult imageName
  else .error ("checkpoint file does not exist: " ++ fullPath checkpointPath)

/-- Strip `http://` / `https://` prefixes from a registry URL. -/
def stripScheme (s : String) : String :=
  let s := if hasPrefixB s "http://" then s.drop 7 else s
  if hasPrefixB s "https://" then s.drop 8 else s

/-- `RegistryClient.PushImage`: login, then push to
`{registry}/{imageName}`; subprocess outcomes from the environment. -/
def pushImage (env : CEEnv) (rc : Registry) (imageName : String) :
    Except String Unit :=
  match env.loginResult with
  | .error e => .error ("failed to login to registry: " ++ e)
  | .ok _ =>
      let destination := stripScheme rc.url ++ "/" ++ imageName
      match env.pushCmdResult imageName with
      | .error e =>
          .error ("failed to push image " ++ imageName ++ " to " ++ destination ++
            ": " ++ e)
      | .ok _ => .ok ()

/-- Steps 6-7 of `checkpointContainer`: record the built image and clean up
the artifact when no registry is configured or the push succeeded.
`fullPath0` is the absolute path computed before any fallback search (the
source never recomputes it). -/
def ccFinish (s : RState) (c : ContainerSpec) (imageName fullPath0 : String)
    (pushed : Bool) : RState × Except String Unit :=
  let s := recordBuiltImage s c.name imageName pushed
  if s.backup.spec.registry.isNone || pushed then
    (deleteCheckpointFile s fullPath0, .ok ())
  else
    (s, .ok ())

/-- Steps 1.5-7 of `checkpointContainer`, starting from a checkpoint path
(recorded or freshly created). -/
def ccAfterPath (env : CEEnv) (s : RState) (pod : Pod) (c : ContainerSpec)
    (checkpointPath : String) : RState × Except String Unit :=
  let fullPath0 := fullPath checkpointPath
  match verifyPath env c.name checkpointPath with
  | .error e => (s, .error e)
  | .ok path =>
    match ccBaseImage pod c with
    | .error e => (s, .error e)
    | .ok _baseImage =>
      let imageName := resolveImageName s.backup c env.now
      let s := updatePhase s "ImageBuilding"
        ("Building checkpoint image for container " ++ c.name)
      match buildCheckpointImage env path imageName with
      | .error e =>
          (updatePhase s "Failed" ("Failed to build image: " ++ e),
           .error ("failed to build checkpoint image: " ++ e))
      | .ok _ =>
        let s := updatePhase s "ImageBuilt"
          ("Image built successfully for container " ++ c.name ++ ": " ++ imageName)
        match s.backup.spec.registry, env.registryClient with
        | some _, some rc =>
            let s := updatePhase s "ImagePushing"
              ("Pushing image " ++ imageName ++ " to registry")
            let s := { s with eff.pushAttempts := s.eff.pushAttempts + 1 }
            match pushImage env rc imageName with
            | .error e =>
                (updatePhase s "Failed" ("Failed to push image: " ++ e),
                 .error ("failed to push checkpoint image: " ++ e))
            | .ok _ =>
                let s := updatePhase s "ImagePushed"
                  ("Image pushed successfully: " ++ imageName)
                ccFinish s c imageName fullPath0 true
        | _, _ => ccFinish s c imageName fullPath0 false

/-- The creation path of `checkpointContainer` (no usable recorded file):
transition to Checkpointing, call the kubelet checkpoint API, record the file
and transition to Checkpointed. -/
def ccCreateThen (env : CEEnv) (s : RState) (pod : Pod) (c : ContainerSpec) :
    RState × Except String Unit :=
  let s := updatePhase s "Checkpointing"
    ("Creating checkpoint for container " ++ c.name)
  match env.checkpointResult c.name with
  | .error e =>
      (updatePhase s "Failed" ("Failed to create checkpoint: " ++ e),
       .error ("failed to create checkpoint via kubelet API: " ++ e))
  | .ok path =>
      let s := recordCheckpointFile s c.name path
      let s := updatePhase s "Checkpointed"
        ("Checkpoint created for container " ++ c.name ++ ": " ++ path)
      ccAfterPath env s pod c path

/-- `CheckpointBackupReconciler.checkpointContainer`. -/
def checkpointContainer (env : CEEnv) (s : RState) (pod : Pod)
    (c : ContainerSpec) : RState × Except String Unit :=
  match getCheckpointFilePath s.backup c.name with
  | some existingPath =>
      if env.diskFiles.contains (fullPath existingPath) then
        ccAfterPath env s pod c existingPath
      else if s.backup.status.builtImages.any
          (fun bi => bi.containerName == c.name) then
        (s, .ok ())
      else
        ccCreateThen env s pod c
  | none => ccCreateThen env s pod c

/-- The per-container loop of `performCheckpoint` (aborts on the first
container error). -/
def processContainers (env : CEEnv) (s : RState) (pod : Pod) :
    List ContainerSpec → RState × Except String Unit
  | [] => (s, .ok ())
  | c :: rest =>
      match checkpointContainer env s pod c with
      | (s, .ok _) => processContainers env s pod rest
      | (s, .error e) => (s, .error e)

/-- The containers processed by `performCheckpoint`: when the request lists
none and no registry is configured, all pod containers with generated
images. -/
def containersToProcess (b : Backup) (pod : Pod) : List ContainerSpec :=
  if b.spec.containers.isEmpty && b.spec.registry.isNone then
    pod.containers.map (fun pc => { name := pc.name, image := "" })
  else
    b.spec.containers

/-- Ghost marker: the capture pipeline reached its container-processing
stage. -/
def markRun (s : RState) : RState :=
  { s with eff.pipelineRuns := s.eff.pipelineRuns + 1 }

/-- `CheckpointBackupReconciler.performCheckpoint`. -/
def performCheckpoint (env : CEEnv) (s : RState) : RState × Except String Unit :=
  if s.backup.status.phase == "Completed" ||
     s.backup.status.phase == "CompletedPodDeleted" ||
     s.backup.status.phase == "CompletedWithError" then
    (s, .ok ())
  else if s.backup.status.phase == "Checkpointing" ||
     s.backup.status.phase == "Checkpointed" ||
     s.backup.status.phase == "ImageBuilding" ||
     s.backup.status.phase == "ImageBuilt" ||
     s.backup.status.phase == "ImagePushing" ||
     s.backup.status.phase == "ImagePushed" then
    (s, .ok ())
  else
    match env.pod with
    | none => (s, .error "failed to get pod")
    | some pod =>
      if !pod.running then (s, .ok ())
      else
        let cts := containersToProcess s.backup pod
        match processContainers env (markRun s) pod cts with
        | (s, .error e) => (s, .error e)
        | (s, .ok _) =>
          let s := updatePhase s "Completed" "All containers checkpointed successfully"
          if shouldStopPod s.backup then
            match env.deletePodResult with
            | .error e =>
                (updatePhase s "CompletedWithError"
                  ("Checkpoint completed but failed to delete pod: " ++ e),
                 .error ("failed to delete pod: " ++ e))
            | .ok _ =>
                let key := backupKey s.backup
                let s := { s with
                  jobs := s.jobs.filter (fun k => k != key)
                  eff.podDeleted := true }
                (updatePhase s "CompletedPodDeleted"
                  "Checkpoint completed and pod deleted successfully", .ok ())
          else (s, .ok ())

/-- `CheckpointBackupReconciler.reconcileNormal`. -/
def reconcileNormal (env : CEEnv) (s : RState) : RState × Except String Unit :=
  if s.backup.spec.schedule == "immediately" then
    if s.backup.status.phase != "" then (s, .ok ())
    else performCheckpoint env s
  else
    let key := backupKey s.backup
    let s := { s with jobs := s.jobs.filter (fun k => k != key) }
    if !env.cronValid then (s, .error "failed to schedule checkpoint job")
    else
      let s := { s with jobs := s.jobs ++ [key] }
      if s.backup.status.lastCheckpointTime.isNone then
        performCheckpoint env s
      else (s, .ok ())

/-- `CheckpointBackupReconciler.reconcileDelete`: drop the cron entry, then
remove the finalizer (a metadata write). -/
def reconcileDelete (s : RState) : RState × Except String Unit :=
  let key := backupKey s.backup
  let s := { s with jobs := s.jobs.filter (fun k => k != key) }
  let s := { s with
    backup.finalizers :=
      s.backup.finalizers.filter (fun f => f != CheckpointBackupFinalizer)
    eff.metaWrites := s.eff.metaWrites + 1 }
  (s, .ok ())

/-- `CheckpointBackupReconciler.Reconcile` (the object exists): ensure the
finalizer, handle deletion, short-circuit CompletedPodDeleted, skip pods not
on this node, then `reconcileNormal`. -/
def reconcile (env : CEEnv) (s : RState) : RState × Except String Unit :=
  let s :=
    if s.backup.finalizers.contains CheckpointBackupFinalizer then s
    else
      { s with
        backup.finalizers := s.backup.finalizers ++ [CheckpointBackupFinalizer]
        eff.metaWrites := s.eff.metaWrites + 1 }
  if s.backup.deletionTimestamp.isSome then reconcileDelete s
  else if s.backup.status.phase == "CompletedPodDeleted" then (s, .ok ())
  else
    let isOnThisNode :=
      match env.pod with
      | none => false
      | some p => p.nodeName == env.nodeName
    if !isOnThisNode then (s, .ok ())
    else reconcileNormal env s

/-- A cron-triggered invocation of the capture pipeline. -/
def cronFire (env : CEEnv) (s : RState) : RState × Except String Unit :=
  performCheckpoint env s

/-- One step of the system: an event-driven reconcile or a cron firing. -/
inductive Op where
  | event (env : CEEnv)
  | cron (env : CEEnv)

/-- Apply one step to the state. -/
def applyOp (s : RState) : Op → RState
  | .event env => (reconcile env s).1
  | .cron env => (cronFire env s).1

/-- Run a sequence of steps. -/
def runOps (s : RState) : List Op → RState
  | [] => s
  | op :: rest => runOps (applyOp s op) rest

/-- Run a sequence of event-driven reconciles. -/
def runRecs (s : RState) : List CEEnv → RState
  | [] => s
  | env :: rest => runRecs (reconcile env s).1 rest

/-- The image of the container a patch targets, read from the admitted pod. -/
def currentImage (pod : AdmPod) (p : Patch) : Option String :=
  if p.onInit then (pod.initContainers[p.idx]?).map PodContainer.image
  else (pod.containers[p.idx]?).map PodContainer.image

/-- Fields untouched by the per-container pipeline (everything except the
status and the status-write / push / file-deletion effects). -/
def ccCore (s t : RState) : Prop :=
  t.backup.name = s.backup.name ∧ t.backup.ns = s.backup.ns ∧
  t.backup.spec = s.backup.spec ∧ t.backup.finalizers = s.backup.finalizers ∧
  t.backup.deletionTimestamp = s.backup.deletionTimestamp ∧
  t.jobs = s.jobs ∧ t.eff.pipelineRuns = s.eff.pipelineRuns ∧
  t.eff.podDeleted = s.eff.podDeleted ∧ t.eff.metaWrites = s.eff.metaWrites

/-- Backup fields untouched by `performCheckpoint` (identity, metadata and
spec). -/
def bkCore (s t : RState) : Prop :=
  t.backup.name = s.backup.name ∧ t.backup.ns = s.backup.ns ∧
  t.backup.spec = s.backup.spec ∧ t.backup.finalizers = s.backup.finalizers ∧
  t.backup.deletionTimestamp = s.backup.deletionTimestamp

/-! ## Concrete fixtures used by witnesses and counterexamples -/

/-- A workload reference used throughout the examples. -/
def refW : ResourceRef :=
  { apiVersion := "apps/v1", kind := "StatefulSet", name := "db", ns := "t" }

/-- A running single-container pod scheduled on `node-1`. -/
def podW : Pod :=
  { nodeName := "node-1", running := true,
    containers := [{ name := "web", image := "nginx:1.25" }] }

/-- A backup spec with immediate schedule and no registry. -/
def specNoReg : BackupSpec :=
  { schedule := "immediately", podRef := { ns := "t", name := "app-0" },
    resourceRef := refW }

/-- A backup spec with a cron schedule and no registry. -/
def specCron : BackupSpec :=
  { schedule := "*/5 * * * *", podRef := { ns := "t", name := "app-0" },
    resourceRef := refW }

/-- An environment on `node-1` where every external call succeeds and no
registry is configured. -/
def envOk : CEEnv :=
  { nodeName := "node-1", pod := some podW,
    checkpointResult := fun c => .ok ("checkpoint-t_app-0-" ++ c ++ "-1.tar"),
    diskFiles := [fullPath "checkpoint-t_app-0-web-1.tar"],
    findFile := fun _ => .error "no checkpoint files found",
    buildResult := fun _ => .ok (),
    registryClient := none,
    loginResult := .ok (),
    pushCmdResult := fun _ => .ok (),
    deletePodResult := .ok (),
    now := "20250101-000000" }

/-- An environment whose pod is scheduled on another node. -/
def envAway : CEEnv :=
  { envOk with
    pod := some { podW with nodeName := "node-2" } }

/-- A registry configuration and a matching environment where the push
subprocess fails. -/
def regW : Registry := { url := "https://reg.example" }

/-- Environment with a configured registry client and a failing push. -/
def envPushFail : CEEnv :=
  { envOk with
    registryClient := some regW,
    pushCmdResult := fun _ => .error "exit status 1" }

/-- A fresh immediate request without the finalizer. -/
def sFresh : RState :=
  { backup := { name := "cb1", ns := "t", spec := specNoReg } }

/-- A fresh immediate request with the finalizer already present. -/
def sFreshFin : RState :=
  { backup := { name := "cb1", ns := "t",
                finalizers := [CheckpointBackupFinalizer], spec := specNoReg } }

/-- A cron-scheduled request whose phase is `Failed`. -/
def sFailed : RState :=
  { backup := { name := "cb1", ns := "t",
                finalizers := [CheckpointBackupFinalizer], spec := specCron,
                status := { phase := "Failed", message := "boom" } } }

/-- An immediate request with `stopPod` enabled and the finalizer present. -/
def sStop : RState :=
  { backup := { name := "cb1", ns := "t",
                finalizers := [CheckpointBackupFinalizer],
                spec := { specNoReg with stopPod := some true } },
    jobs := ["t/cb1"] }

/-- A request with a configured registry and a supplied target image. -/
def sRegistry : RState :=
  { backup := { name := "cb1", ns := "t",
                finalizers := [CheckpointBackupFinalizer],
                spec := { specNoReg with
                  registry := some regW,
                  containers := [{ name := "web", image := "reg-img:1" }] } } }

/-- A cron-scheduled request whose phase is `Completed`. -/
def sCompleted : RState :=
  { backup := { name := "cb1", ns := "t",
                finalizers := [CheckpointBackupFinalizer], spec := specCron,
                status := { phase := "Completed",
                            message := "All containers checkpointed successfully" } } }

/-- A request with no registry but a supplied target image. -/
def backupNoRegImg : Backup :=
  { name := "cb1", ns := "t",
    spec := { specNoReg with
      containers := [{ name := "web", image := "custom:1" }] } }

/-- An admitted pod owned by Job `restore-xyz`, one container. -/
def admPodW : AdmPod :=
  { name := "restore-xyz-r2d2", generateName := "",
    containers := [{ name := "web", image := "img:1" }] }

/-- A backup whose resourceRef is the Job `restore-xyz` and whose spec maps
container `web` to the image the pod already runs. -/
def backupJobW : Backup :=
  { name := "cbj", ns := "t",
    spec := { schedule := "immediately", podRef := { ns := "t", name := "p" },
              resourceRef :=
                { apiVersion := "batch/v1", kind := "Job",
                  name := "restore-xyz", ns := "t" },
              containers := [{ name := "web", image := "img:1" }] } }

/-- A backup for `refW` used by the restore-orchestrator examples. -/
def backupW : Backup :=
  { name := "cb1", ns := "t", spec := specNoReg }

/-- The migration spec of the restore examples: two source clusters. -/
def migW : Migration := { resourceRef := refW, sourceClusters := ["c1", "c2"] }

/-- A backup that matches no Job (StatefulSet resourceRef). -/
def backupOther : Backup := { name := "cbo", ns := "t", spec := specNoReg }

/-- A second backup matching the same Job, with a different image. -/
def backupJob2 : Backup :=
  { backupJobW with
    name := "cbj2",
    spec := { backupJobW.spec with
      containers := [{ name := "web", image := "other:9" }] } }

/-- A CheckpointRestore matching `admPodW` by pod name, mapping `web` to a
new image. -/
def crW : CRItem :=
  { name := "cr1",
    spec := { podName := "restore-xyz-r2d2",
              containers := [{ name := "web", image := "new:2" }] } }

/-- A CheckpointRestore that matches no pod of the examples. -/
def crOther : CRItem := { name := "cr0", spec := { podName := "zzz" } }

/-- A second matching CheckpointRestore with a different image. -/
def crW2 : CRItem :=
  { name := "cr2",
    spec := { podName := "restore-xyz-r2d2",
              containers := [{ name := "web", image := "zzz:1" }] } }

/-! ## Helper lemmas -/

theorem find?_first_of_prefix_none {α} (p : α → Bool) (pre post : List α) (b : α)
    (hpre : ∀ x ∈ pre, p x = false) (hb : p b = true) :
    (pre ++ b :: post).find? p = some b := by
  induction pre with
  | nil => simp [List.find?_cons, hb]
  | cons x xs ih =>
      have hx := hpre x (List.mem_cons_self x xs)
      simp only [List.cons_append, List.find?_cons, hx]
      exact ih (fun y hy => hpre y (List.mem_cons_of_mem x hy))

theorem wsFirstMatchMap_first (pod : AdmPod) (pre post : List CRItem) (it : CRItem)
    (hpre : ∀ x ∈ pre, wsNameMatch pod x.spec = false)
    (hit : wsNameMatch pod it.spec = true) :
    wsFirstMatchMap pod (pre ++ it :: post) = wsBuildFromCR it.spec := by
  induction pre with
  | nil => simp [wsFirstMatchMap, hit]
  | cons x xs ih =>
      have hx := hpre x (List.mem_cons_self x xs)
      simp only [List.cons_append, wsFirstMatchMap, hx]
      simp only [Bool.false_eq_true, if_false]
      exact ih (fun y hy => hpre y (List.mem_cons_of_mem x hy))

theorem ws_patch_core {cs : List PodContainer} {i : Nat} {c : PodContainer}
    {onInit : Bool} {p : Patch} {w : String}
    (hmem : cs[i]? = some c)
    (hf : (if (w == "" || c.image == w) = true then none
           else some { idx := i, value := w, onInit := onInit }) = some p) :
    ∃ c, cs[p.idx]? = some c ∧ c.image ≠ p.value ∧ p.onInit = onInit := by
  split at hf
  · simp at hf
  · rename_i hcond
    have hp := Option.some.inj hf
    subst hp
    refine ⟨c, hmem, ?_, rfl⟩
    intro hEq
    simp [hEq] at hcond

theorem ws_patch_mem {m : List (String × String)} {d : String}
    {cs : List PodContainer} {onInit : Bool} {p : Patch}
    (h : p ∈ wsContainerPatches m d cs onInit) :
    ∃ c, cs[p.idx]? = some c ∧ c.image ≠ p.value ∧ p.onInit = onInit := by
  unfold wsContainerPatches at h
  rw [List.mem_filterMap] at h
  obtain ⟨⟨i, c⟩, hmem, hf⟩ := h
  rw [List.mk_mem_enum_iff_getElem?] at hmem
  simp only at hf
  split at hf
  · exact ws_patch_core hmem hf
  · exact ws_patch_core hmem hf

/-! ## Claim C7 -/

/-- Claim C7, counterexample: the controller-runtime `generateImagePatches`
emits a replace patch whose value equals the current image of the incoming
container (the source performs no equality check), so the claim as stated is
false for that implementation. -/
theorem c7_counterexample :
    podMutatorPatches admPodW [backupJobW] "restore-xyz" "t" =
      [{ idx := 0, value := "img:1" }] ∧
    (admPodW.containers[0]?).map PodContainer.image = some "img:1" :=
  ⟨rfl, rfl⟩

/-- Claim C7, amended: the webhook-server implementation (`handleMutate`)
never emits a patch whose value equals the targeted container's current image
(containers and init containers alike); the controller-runtime `PodMutator`,
by contrast, emits a replace for every pod container whose name is in the
image map, even when the mapped image equals the current one. -/
theorem c7_amended :
    (∀ (pod : AdmPod) (items : List CRItem) (p : Patch),
        p ∈ wsMutatePatches pod items → currentImage pod p ≠ some p.value)
    ∧ (∀ (pod : AdmPod) (b : Backup) (i : Nat) (c : PodContainer) (img : String),
        pod.containers[i]? = some c →
        lookupA (buildImageMapPM b) c.name = some img →
        ({ idx := i, value := img } : Patch) ∈ generateImagePatches pod b) := by
  constructor
  · intro pod items p hmem
    simp only [wsMutatePatches] at hmem
    split at hmem
    · simp at hmem
    · rw [List.mem_append] at hmem
      rcases hmem with hmem | hmem
      · obtain ⟨c, hc, hne, honInit⟩ := ws_patch_mem hmem
        simp [currentImage, honInit, hc]
        exact fun h => hne h
      · obtain ⟨c, hc, hne, honInit⟩ := ws_patch_mem hmem
        simp [currentImage, honInit, hc]
        exact fun h => hne h
  · intro pod b i c img hc hlook
    unfold generateImagePatches
    rw [List.mem_filterMap]
    exact ⟨(i, c), List.mk_mem_enum_iff_getElem?.mpr hc, by simp [hlook]⟩

/-- Claim C7, witness for the amended theorem at concrete inputs. -/
theorem c7_amended_witness :
    ((⟨0, "new:2", false⟩ : Patch) ∈ wsMutatePatches admPodW [crW]) ∧
    currentImage admPodW ⟨0, "new:2", false⟩ ≠ some "new:2" ∧
    (({ idx := 0, value := "img:1" } : Patch) ∈
      generateImagePatches admPodW backupJobW) :=
  ⟨by decide,
   c7_amended.1 admPodW [crW] _ (by decide),
   c7_amended.2 admPodW backupJobW 0 { name := "web", image := "img:1" } "img:1"
     (by decide) (by decide)⟩

/-! ## Claim C10 -/

/-- Claim C10: in both admission implementations the image substitution map
comes from exactly the first matching request in list order; requests after
the first match never influence the emitted patches. -/
theorem c10_first_match_only :
    (∀ (pod : AdmPod) (jobName ns : String) (pre post : List Backup) (b : Backup),
        (∀ x ∈ pre, doesResourceRefMatchJob x.spec.resourceRef jobName ns = false) →
        doesResourceRefMatchJob b.spec.resourceRef jobName ns = true →
        podMutatorPatches pod (pre ++ b :: post) jobName ns =
          generateImagePatches pod b)
    ∧ (∀ (pod : AdmPod) (pre post : List CRItem) (it : CRItem),
        (∀ x ∈ pre, wsNameMatch pod x.spec = false) →
        wsNameMatch pod it.spec = true →
        wsMutatePatches pod (pre ++ it :: post) = wsMutatePatches pod [it]) := by
  constructor
  · intro pod jobName ns pre post b hpre hb
    unfold podMutatorPatches findMatchingCheckpointBackup
    rw [find?_first_of_prefix_none _ pre post b hpre hb]
  · intro pod pre post it hpre hit
    unfold wsMutatePatches
    rw [wsFirstMatchMap_first pod pre post it hpre hit]
    have h1 : wsFirstMatchMap pod [it] = wsBuildFromCR it.spec := by
      simp [wsFirstMatchMap, hit]
    rw [h1]

/-- Claim C10, witness: with a non-matching request first and a second
matching request after the first match, the output equals the one computed
from the first match alone. -/
theorem c10_witness :
    doesResourceRefMatchJob backupJobW.spec.resourceRef "restore-xyz" "t" = true ∧
    podMutatorPatches admPodW [backupOther, backupJobW, backupJob2]
        "restore-xyz" "t" = generateImagePatches admPodW backupJobW ∧
    wsMutatePatches admPodW [crOther, crW, crW2] = wsMutatePatches admPodW [crW] :=
  ⟨by decide,
   c10_first_match_only.1 admPodW "restore-xyz" "t" [backupOther] [backupJob2]
     backupJobW
     (by intro x hx; rw [List.mem_singleton] at hx; subst hx; decide)
     (by decide),
   c10_first_match_only.2 admPodW [crOther] [crW2] crW
     (by intro x hx; rw [List.mem_singleton] at hx; subst hx; decide)
     (by decide)⟩

/-! ## Claim C8 -/

/-- Claim C8: `processSourceCluster` creates no RestoreRequest while the
source cluster is still listed in the binding (second conjunct, the half the
claim gets right), but it also creates none once the cluster has been removed
(first conjunct), because `findResourceBinding` only returns bindings that
still contain the source cluster — the restore branch is unreachable.  The
third conjunct shows the unreachable branch would have created the
`{name}-restore` object the claim describes. -/
theorem c8_removed_cluster_creates_nothing :
    processSourceCluster [{ resource := refW, clusters := ["c2"] }] [backupW]
        [] migW "c1" = [] ∧
    processSourceCluster [{ resource := refW, clusters := ["c1", "c2"] }]
        [backupW] [] migW "c1" = [] ∧
    (findCheckpointBackups [backupW] refW).filterMap
        (createCheckpointRestore []) = ["cb1-restore"] :=
  ⟨rfl, rfl, rfl⟩

/-! ## Claim C9 -/

/-- Claim C9: the target cluster chosen by
`createRestorePropagationPolicy` is simply the first entry of
`sourceClusters` — here `c1`, the very cluster that was removed — so the
removed cluster can be selected as the propagation target, contradicting the
claim (and the comment in the source). -/
theorem c9_target_is_first_source_cluster :
    chooseTargetCluster migW.sourceClusters = .ok "c1" := rfl

/-! ## Checkpoint Engine helper lemmas -/

theorem ccCore_refl (s : RState) : ccCore s s := by
  simp [ccCore]

theorem ccCore_trans {s t u : RState} (h1 : ccCore s t) (h2 : ccCore t u) :
    ccCore s u := by
  obtain ⟨a1, a2, a3, a4, a5, a6, a7, a8, a9⟩ := h1
  obtain ⟨b1, b2, b3, b4, b5, b6, b7, b8, b9⟩ := h2
  exact ⟨b1.trans a1, b2.trans a2, b3.trans a3, b4.trans a4, b5.trans a5,
    b6.trans a6, b7.trans a7, b8.trans a8, b9.trans a9⟩

theorem ccCore_updatePhase (s : RState) (ph m : String) :
    ccCore s (updatePhase s ph m) := by
  simp [ccCore, updatePhase]

theorem ccCore_recordCheckpointFile (s : RState) (cn cp : String) :
    ccCore s (recordCheckpointFile s cn cp) := by
  unfold recordCheckpointFile
  split <;> simp [ccCore]

theorem ccCore_recordBuiltImage (s : RState) (cn i : String) (p : Bool) :
    ccCore s (recordBuiltImage s cn i p) := by
  unfold recordBuiltImage
  split <;> simp [ccCore]

theorem ccCore_deleteCheckpointFile (s : RState) (p : String) :
    ccCore s (deleteCheckpointFile s p) := by
  simp [ccCore, deleteCheckpointFile]

theorem ccCore_ccFinish (s : RState) (c : ContainerSpec) (i f : String)
    (p : Bool) : ccCore s (ccFinish s c i f p).1 := by
  unfold ccFinish
  dsimp only
  split <;>
    simp [ccCore, updatePhase, recordCheckpointFile, recordBuiltImage,
      deleteCheckpointFile, apply_ite]

theorem ccCore_ccAfterPath (env : CEEnv) (s : RState) (pod : Pod)
    (c : ContainerSpec) (cp : String) : ccCore s (ccAfterPath env s pod c cp).1 := by
  unfold ccAfterPath ccFinish
  dsimp only
  repeat' split
  all_goals
    simp [ccCore, updatePhase, recordCheckpointFile, recordBuiltImage,
      deleteCheckpointFile, apply_ite]

theorem ccCore_ccCreateThen (env : CEEnv) (s : RState) (pod : Pod)
    (c : ContainerSpec) : ccCore s (ccCreateThen env s pod c).1 := by
  unfold ccCreateThen
  dsimp only
  split
  · simp [ccCore, updatePhase]
  · refine ccCore_trans ?_ (ccCore_ccAfterPath _ _ _ _ _)
    refine ccCore_trans ?_ (ccCore_updatePhase _ _ _)
    refine ccCore_trans ?_ (ccCore_recordCheckpointFile _ _ _)
    exact ccCore_updatePhase s _ _

theorem ccCore_checkpointContainer (env : CEEnv) (s : RState) (pod : Pod)
    (c : ContainerSpec) : ccCore s (checkpointContainer env s pod c).1 := by
  unfold checkpointContainer
  split
  · split
    · exact ccCore_ccAfterPath _ _ _ _ _
    · split
      · exact ccCore_refl s
      · exact ccCore_ccCreateThen _ _ _ _
  · exact ccCore_ccCreateThen _ _ _ _

theorem ccCore_processContainers (env : CEEnv) (pod : Pod) :
    ∀ (l : List ContainerSpec) (s : RState),
      ccCore s (processContainers env s pod l).1 := by
  intro l
  induction l with
  | nil => intro s; exact ccCore_refl s
  | cons c rest ih =>
      intro s
      have hcc := ccCore_checkpointContainer env s pod c
      simp only [processContainers]
      rcases h : checkpointContainer env s pod c with ⟨s1, r⟩
      rw [h] at hcc
      cases r with
      | ok u => exact ccCore_trans hcc (ih s1)
      | error e => exact hcc

theorem phase_ne_ccAfterPath (env : CEEnv) (s : RState) (pod : Pod)
    (c : ContainerSpec) (cp : String) (h : s.backup.status.phase ≠ "") :
    (ccAfterPath env s pod c cp).1.backup.status.phase ≠ "" := by
  unfold ccAfterPath ccFinish
  dsimp only
  repeat' split
  all_goals
    simp [updatePhase, recordCheckpointFile, recordBuiltImage,
      deleteCheckpointFile, apply_ite]
  all_goals exact h

theorem phase_ne_ccCreateThen (env : CEEnv) (s : RState) (pod : Pod)
    (c : ContainerSpec) :
    (ccCreateThen env s pod c).1.backup.status.phase ≠ "" := by
  unfold ccCreateThen
  dsimp only
  split
  · simp [updatePhase]
  · apply phase_ne_ccAfterPath
    simp [updatePhase, recordCheckpointFile, apply_ite]

theorem phase_ne_checkpointContainer (env : CEEnv) (s : RState) (pod : Pod)
    (c : ContainerSpec) (h : s.backup.status.phase ≠ "") :
    (checkpointContainer env s pod c).1.backup.status.phase ≠ "" := by
  unfold checkpointContainer
  split
  · split
    · exact phase_ne_ccAfterPath env s pod c _ h
    · split
      · exact h
      · exact phase_ne_ccCreateThen env s pod c
  · exact phase_ne_ccCreateThen env s pod c

theorem phase_ne_checkpointContainer_of_none (env : CEEnv) (s : RState)
    (pod : Pod) (c : ContainerSpec)
    (h : getCheckpointFilePath s.backup c.name = none) :
    (checkpointContainer env s pod c).1.backup.status.phase ≠ "" := by
  unfold checkpointContainer
  rw [h]
  exact phase_ne_ccCreateThen env s pod c

theorem phase_ne_processContainers (env : CEEnv) (pod : Pod) :
    ∀ (l : List ContainerSpec) (s : RState), s.backup.status.phase ≠ "" →
      (processContainers env s pod l).1.backup.status.phase ≠ "" := by
  intro l
  induction l with
  | nil => intro s h; exact h
  | cons c rest ih =>
      intro s h
      have h1 := phase_ne_checkpointContainer env s pod c h
      simp only [processContainers]
      rcases hcc : checkpointContainer env s pod c with ⟨s1, r⟩
      rw [hcc] at h1
      cases r with
      | ok u => exact ih s1 h1
      | error e => exact h1

theorem phase_ne_processContainers_of_nofiles (env : CEEnv) (pod : Pod)
    (c : ContainerSpec) (rest : List ContainerSpec) (s : RState)
    (hfiles : s.backup.status.checkpointFiles = []) :
    (processContainers env s pod (c :: rest)).1.backup.status.phase ≠ "" := by
  have h1 := phase_ne_checkpointContainer_of_none env s pod c
    (by simp [getCheckpointFilePath, hfiles])
  simp only [processContainers]
  rcases hcc : checkpointContainer env s pod c with ⟨s1, r⟩
  rw [hcc] at h1
  cases r with
  | ok u => exact phase_ne_processContainers env pod rest s1 h1
  | error e => exact h1

theorem performCheckpoint_terminal3 (env : CEEnv) (s : RState)
    (h : s.backup.status.phase = "Completed" ∨
         s.backup.status.phase = "CompletedPodDeleted" ∨
         s.backup.status.phase = "CompletedWithError") :
    performCheckpoint env s = (s, .ok ()) := by
  unfold performCheckpoint
  rcases h with h | h | h <;> simp [h]

theorem performCheckpoint_spec (env : CEEnv) (s : RState) :
    (performCheckpoint env s).1.backup.spec = s.backup.spec := by
  unfold performCheckpoint
  split
  · rfl
  split
  · rfl
  split
  · rfl
  rename_i pod hpod
  split
  · rfl
  dsimp only
  rcases hpc : processContainers env (markRun s) pod
      (containersToProcess s.backup pod) with ⟨s1, r⟩
  have hcc := ccCore_processContainers env pod
    (containersToProcess s.backup pod) (markRun s)
  rw [hpc] at hcc
  have hspec : s1.backup.spec = s.backup.spec := hcc.2.2.1
  cases r with
  | error e => exact hspec
  | ok u =>
      dsimp only
      repeat' split
      all_goals simp [updatePhase]
      all_goals exact hspec

theorem performCheckpoint_cases (env : CEEnv) (s : RState)
    (hphase : s.backup.status.phase = "")
    (hfiles : s.backup.status.checkpointFiles = []) :
    (performCheckpoint env s).1 = s ∨
    ((performCheckpoint env s).1.eff.pipelineRuns = s.eff.pipelineRuns + 1 ∧
     (performCheckpoint env s).1.backup.status.phase ≠ "") := by
  unfold performCheckpoint
  simp only [hphase]
  simp only [show (("" == "Completed") || ("" == "CompletedPodDeleted") ||
      ("" == "CompletedWithError")) = false from rfl,
    show (("" == "Checkpointing") || ("" == "Checkpointed") ||
      ("" == "ImageBuilding") || ("" == "ImageBuilt") ||
      ("" == "ImagePushing") || ("" == "ImagePushed")) = false from rfl,
    Bool.false_eq_true, if_false]
  cases hpod : env.pod with
  | none => left; rfl
  | some pod =>
      dsimp only
      cases hrun : pod.running with
      | false => left; simp
      | true =>
          simp only [Bool.not_true, Bool.false_eq_true, if_false]
          rcases hpc : processContainers env (markRun s) pod
              (containersToProcess s.backup pod) with ⟨s1, r⟩
          have hcc := ccCore_processContainers env pod
            (containersToProcess s.backup pod) (markRun s)
          rw [hpc] at hcc
          have hruns : s1.eff.pipelineRuns = s.eff.pipelineRuns + 1 := by
            have h7 := hcc.2.2.2.2.2.2.1
            simpa [markRun] using h7
          right
          cases r with
          | error e =>
              dsimp only
              refine ⟨hruns, ?_⟩
              cases hcts : containersToProcess s.backup pod with
              | nil =>
                  rw [hcts] at hpc
                  simp [processContainers] at hpc
              | cons c rest =>
                  have hne := phase_ne_processContainers_of_nofiles env pod c
                    rest (markRun s) (by simpa [markRun] using hfiles)
                  rw [hcts] at hpc
                  rw [hpc] at hne
                  exact hne
          | ok u =>
              dsimp only
              constructor
              · repeat' split
                all_goals simp [updatePhase]
                all_goals exact hruns
              · repeat' split
                all_goals simp [updatePhase]

theorem reconcileNormal_spec (env : CEEnv) (s : RState) :
    (reconcileNormal env s).1.backup.spec = s.backup.spec := by
  unfold reconcileNormal
  dsimp only
  split
  · split
    · rfl
    · exact performCheckpoint_spec env s
  · split
    · rfl
    · split
      · exact performCheckpoint_spec env _
      · rfl

theorem reconcile_spec (env : CEEnv) (s : RState) :
    (reconcile env s).1.backup.spec = s.backup.spec := by
  unfold reconcile
  by_cases hf : s.backup.finalizers.contains CheckpointBackupFinalizer = true
  · simp only [hf, if_true]
    split
    · rfl
    · split
      · rfl
      · split
        · rfl
        · exact reconcileNormal_spec env s
  · simp only [hf, Bool.false_eq_true, if_false]
    split
    · rfl
    · split
      · rfl
      · split
        · rfl
        · exact reconcileNormal_spec env _

theorem reconcileNormal_status_terminal3 (env : CEEnv) (s : RState)
    (h3 : s.backup.status.phase = "Completed" ∨
          s.backup.status.phase = "CompletedPodDeleted" ∨
          s.backup.status.phase = "CompletedWithError") :
    (reconcileNormal env s).1.backup.status = s.backup.status := by
  unfold reconcileNormal
  dsimp only
  split
  · split
    · rfl
    · rename_i hne
      rcases h3 with h | h | h <;> simp [h] at hne
  · split
    · rfl
    · split
      · have hpt := performCheckpoint_terminal3 env
          { backup := s.backup,
            jobs := List.filter (fun k => k != backupKey s.backup) s.jobs ++
              [backupKey s.backup],
            eff := s.eff } h3
        rw [hpt]
      · rfl

theorem reconcile_status_terminal3 (env : CEEnv) (s : RState)
    (h3 : s.backup.status.phase = "Completed" ∨
          s.backup.status.phase = "CompletedPodDeleted" ∨
          s.backup.status.phase = "CompletedWithError") :
    (reconcile env s).1.backup.status = s.backup.status := by
  unfold reconcile
  by_cases hf : s.backup.finalizers.contains CheckpointBackupFinalizer = true
  · simp only [hf, if_true]
    split
    · rfl
    · split
      · rfl
      · split
        · rfl
        · exact reconcileNormal_status_terminal3 env s h3
  · simp only [hf, Bool.false_eq_true, if_false]
    split
    · rfl
    · split
      · rfl
      · split
        · rfl
        · exact reconcileNormal_status_terminal3 env _ h3

theorem applyOp_status_terminal3 (s : RState) (op : Op)
    (h3 : s.backup.status.phase = "Completed" ∨
          s.backup.status.phase = "CompletedPodDeleted" ∨
          s.backup.status.phase = "CompletedWithError") :
    (applyOp s op).backup.status = s.backup.status := by
  cases op with
  | event env => exact reconcile_status_terminal3 env s h3
  | cron env =>
      show (cronFire env s).1.backup.status = s.backup.status
      unfold cronFire
      rw [performCheckpoint_terminal3 env s h3]

/-! ## Claim C2 -/

/-- Claim C2, counterexample: a cron-scheduled request in phase `Failed` is
re-processed by the next reconcile (`performCheckpoint` treats only
`Completed`, `CompletedPodDeleted` and `CompletedWithError` as terminal), so
its status does not stay unchanged — here it moves to `Completed`. -/
theorem c2_counterexample :
    sFailed.backup.status.phase = "Failed" ∧
    (reconcile envOk sFailed).1.backup.status.phase = "Completed" :=
  ⟨rfl, rfl⟩

/-- Claim C2, amended: a request whose phase is `Completed`,
`CompletedPodDeleted` or `CompletedWithError` (but not `Failed`) is never
re-processed: any sequence of event-driven reconciles and cron-triggered
invocations leaves its status unchanged. -/
theorem c2_amended (ops : List Op) (s : RState)
    (h3 : s.backup.status.phase = "Completed" ∨
          s.backup.status.phase = "CompletedPodDeleted" ∨
          s.backup.status.phase = "CompletedWithError") :
    (runOps s ops).backup.status = s.backup.status := by
  induction ops generalizing s with
  | nil => rfl
  | cons op rest ih =>
      simp only [runOps]
      have hstep := applyOp_status_terminal3 s op h3
      have h3' : (applyOp s op).backup.status.phase = "Completed" ∨
          (applyOp s op).backup.status.phase = "CompletedPodDeleted" ∨
          (applyOp s op).backup.status.phase = "CompletedWithError" := by
        rw [hstep]; exact h3
      rw [ih (applyOp s op) h3', hstep]

/-- Claim C2, witness: a `Completed` cron request stays unchanged across an
event reconcile followed by a cron firing. -/
theorem c2_amended_witness :
    sCompleted.backup.status.phase = "Completed" ∧
    (runOps sCompleted [Op.event envOk, Op.cron envOk]).backup.status =
      sCompleted.backup.status :=
  ⟨rfl, c2_amended [Op.event envOk, Op.cron envOk] sCompleted (Or.inl rfl)⟩

/-! ## Claim C1 -/

/-- Claim C1, counterexample: for a request that does not yet carry the
finalizer, the reconcile writes the finalizer (a metadata API write) before
checking whether the pod is on this node — even though the pod is on another
node. -/
theorem c1_counterexample :
    sFresh.backup.finalizers = [] ∧
    (reconcile envAway sFresh).1.eff.metaWrites = 1 ∧
    (reconcile envAway sFresh).1.backup.finalizers = [CheckpointBackupFinalizer] :=
  ⟨rfl, rfl, rfl⟩

/-- Claim C1, amended: when the referenced pod is absent or scheduled on
another node and the request is not being deleted, the reconcile performs no
status write, no pod deletion, no artifact deletion and no push; the only
possible API write is the finalizer metadata update, which happens exactly
when the finalizer was missing. -/
theorem c1_amended (env : CEEnv) (s : RState)
    (hdel : s.backup.deletionTimestamp = none)
    (haway : env.pod.map Pod.nodeName ≠ some env.nodeName) :
    (reconcile env s).1.backup.status = s.backup.status ∧
    (reconcile env s).1.eff.statusWrites = s.eff.statusWrites ∧
    (reconcile env s).1.eff.podDeleted = s.eff.podDeleted ∧
    (reconcile env s).1.eff.deletedFiles = s.eff.deletedFiles ∧
    (reconcile env s).1.eff.pushAttempts = s.eff.pushAttempts ∧
    ((reconcile env s).1.backup.finalizers =
      if s.backup.finalizers.contains CheckpointBackupFinalizer then
        s.backup.finalizers
      else s.backup.finalizers ++ [CheckpointBackupFinalizer]) ∧
    ((reconcile env s).1.eff.metaWrites =
      if s.backup.finalizers.contains CheckpointBackupFinalizer then
        s.eff.metaWrites
      else s.eff.metaWrites + 1) := by
  have honode : (match env.pod with
      | none => false
      | some p => p.nodeName == env.nodeName) = false := by
    cases hpod : env.pod with
    | none => rfl
    | some p =>
        have hne : p.nodeName ≠ env.nodeName := by
          intro hEq
          exact haway (by rw [hpod]; simp [hEq])
        simp [hne]
  unfold reconcile
  by_cases hf : s.backup.finalizers.contains CheckpointBackupFinalizer = true
  · simp only [hf, if_true]
    simp only [hdel, Option.isSome_none, Bool.false_eq_true, if_false]
    split
    · simp [hf]
    · simp only [honode, Bool.not_false, if_true]
      simp [hf]
  · simp only [hf, Bool.false_eq_true, if_false]
    simp only [hdel, Option.isSome_none, Bool.false_eq_true, if_false]
    split
    · simp [hf]
    · simp only [honode, Bool.not_false, if_true]
      simp [hf]

theorem performCheckpoint_runs_ready (env : CEEnv) (t : RState) (p : Pod)
    (hphase : t.backup.status.phase = "")
    (hpod : env.pod = some p) (hrun : p.running = true) :
    (performCheckpoint env t).1.eff.pipelineRuns = t.eff.pipelineRuns + 1 := by
  unfold performCheckpoint
  simp only [hphase]
  simp only [show (("" == "Completed") || ("" == "CompletedPodDeleted") ||
      ("" == "CompletedWithError")) = false from rfl,
    show (("" == "Checkpointing") || ("" == "Checkpointed") ||
      ("" == "ImageBuilding") || ("" == "ImageBuilt") ||
      ("" == "ImagePushing") || ("" == "ImagePushed")) = false from rfl,
    Bool.false_eq_true, if_false]
  rw [hpod]
  dsimp only
  simp only [hrun, Bool.not_true, Bool.false_eq_true, if_false]
  rcases hpc : processContainers env (markRun t) p
      (containersToProcess t.backup p) with ⟨s1, r⟩
  have hcc := ccCore_processContainers env p
    (containersToProcess t.backup p) (markRun t)
  rw [hpc] at hcc
  have hruns : s1.eff.pipelineRuns = t.eff.pipelineRuns + 1 := by
    have h7 := hcc.2.2.2.2.2.2.1
    simpa [markRun] using h7
  cases r with
  | error e => exact hruns
  | ok u =>
      dsimp only
      repeat' split
      all_goals simp [updatePhase]
      all_goals exact hruns

theorem reconcileImm_noop (env : CEEnv) (t : RState)
    (hsched : t.backup.spec.schedule = "immediately")
    (hphase : t.backup.status.phase ≠ "") :
    (reconcile env t).1.backup.status = t.backup.status ∧
    (reconcile env t).1.eff.pipelineRuns = t.eff.pipelineRuns := by
  have hb : (t.backup.spec.schedule == "immediately") = true := by simp [hsched]
  have hp : (t.backup.status.phase != "") = true := by
    simp [bne_iff_ne]
    exact hphase
  unfold reconcile
  by_cases hf : t.backup.finalizers.contains CheckpointBackupFinalizer = true
  · simp only [hf, if_true]
    split
    · exact ⟨rfl, rfl⟩
    split
    · exact ⟨rfl, rfl⟩
    split
    · exact ⟨rfl, rfl⟩
    · unfold reconcileNormal
      dsimp only
      simp only [hb, if_true, hp]
      simp
  · simp only [hf, Bool.false_eq_true, if_false]
    split
    · exact ⟨rfl, rfl⟩
    split
    · exact ⟨rfl, rfl⟩
    split
    · exact ⟨rfl, rfl⟩
    · unfold reconcileNormal
      dsimp only
      simp only [hb, if_true, hp]
      simp

theorem reconcileImm_cases (env : CEEnv) (s : RState)
    (hsched : s.backup.spec.schedule = "immediately")
    (hphase : s.backup.status.phase = "")
    (hfiles : s.backup.status.checkpointFiles = []) :
    ((reconcile env s).1.backup.status = s.backup.status ∧
     (reconcile env s).1.eff.pipelineRuns = s.eff.pipelineRuns) ∨
    ((reconcile env s).1.eff.pipelineRuns = s.eff.pipelineRuns + 1 ∧
     (reconcile env s).1.backup.status.phase ≠ "") := by
  have hb : (s.backup.spec.schedule == "immediately") = true := by simp [hsched]
  have hp : (s.backup.status.phase != "") = false := by simp [hphase]
  unfold reconcile
  by_cases hf : s.backup.finalizers.contains CheckpointBackupFinalizer = true
  · simp only [hf, if_true]
    split
    · exact Or.inl ⟨rfl, rfl⟩
    split
    · exact Or.inl ⟨rfl, rfl⟩
    split
    · exact Or.inl ⟨rfl, rfl⟩
    · unfold reconcileNormal
      dsimp only
      simp only [hb, if_true, hp, Bool.false_eq_true, if_false]
      rcases performCheckpoint_cases env s hphase hfiles with h | ⟨h1, h2⟩
      · exact Or.inl ⟨by rw [h], by rw [h]⟩
      · exact Or.inr ⟨h1, h2⟩
  · simp only [hf, Bool.false_eq_true, if_false]
    split
    · exact Or.inl ⟨rfl, rfl⟩
    split
    · exact Or.inl ⟨rfl, rfl⟩
    split
    · exact Or.inl ⟨rfl, rfl⟩
    · unfold reconcileNormal
      dsimp only
      simp only [hb, if_true, hp, Bool.false_eq_true, if_false]
      rcases performCheckpoint_cases env
          { backup := { s.backup with
              finalizers := s.backup.finalizers ++ [CheckpointBackupFinalizer] },
            jobs := s.jobs,
            eff := { s.eff with metaWrites := s.eff.metaWrites + 1 } }
          hphase hfiles with h | ⟨h1, h2⟩
      · exact Or.inl ⟨by rw [h], by rw [h]⟩
      · exact Or.inr ⟨h1, h2⟩

theorem runRecs_noop (envs : List CEEnv) :
    ∀ (t : RState), t.backup.spec.schedule = "immediately" →
      t.backup.status.phase ≠ "" →
      (runRecs t envs).backup.status = t.backup.status ∧
      (runRecs t envs).eff.pipelineRuns = t.eff.pipelineRuns := by
  induction envs with
  | nil => intro t _ _; exact ⟨rfl, rfl⟩
  | cons env rest ih =>
      intro t hsched hphase
      simp only [runRecs]
      have hstep := reconcileImm_noop env t hsched hphase
      have ih' := ih (reconcile env t).1
        (by rw [reconcile_spec]; exact hsched)
        (by rw [hstep.1]; exact hphase)
      exact ⟨ih'.1.trans hstep.1, ih'.2.trans hstep.2⟩

theorem runRecs_bound (envs : List CEEnv) :
    ∀ (s : RState), s.backup.spec.schedule = "immediately" →
      s.backup.status.phase = "" →
      s.backup.status.checkpointFiles = [] →
      (runRecs s envs).eff.pipelineRuns ≤ s.eff.pipelineRuns + 1 := by
  induction envs with
  | nil => intro s _ _ _; exact Nat.le_succ _
  | cons env rest ih =>
      intro s h1 h2 h3
      simp only [runRecs]
      rcases reconcileImm_cases env s h1 h2 h3 with ⟨hst, hrn⟩ | ⟨hrn, hph⟩
      · have hb := ih (reconcile env s).1
          (by rw [reconcile_spec]; exact h1)
          (by rw [hst]; exact h2)
          (by rw [hst]; exact h3)
        rw [hrn] at hb
        exact hb
      · have hnoop := runRecs_noop rest (reconcile env s).1
          (by rw [reconcile_spec]; exact h1) hph
        rw [hnoop.2, hrn]

/-! ## Claim C3 -/

/-- Claim C3: for a fresh `immediately` request, (i) across arbitrarily many
reconciles the capture pipeline reaches its container-processing stage at
most once; (ii) every reconcile that observes a non-empty phase leaves the
status unchanged and does not run the pipeline; (iii) the pipeline does run
on a reconcile that observes the unset phase with the pod local and
running. -/
theorem c3_immediately_once (envs : List CEEnv) (s : RState)
    (hsched : s.backup.spec.schedule = "immediately")
    (hphase : s.backup.status.phase = "")
    (hfiles : s.backup.status.checkpointFiles = []) :
    (runRecs s envs).eff.pipelineRuns ≤ s.eff.pipelineRuns + 1 ∧
    (∀ (env : CEEnv) (t : RState), t.backup.spec.schedule = "immediately" →
        t.backup.status.phase ≠ "" →
        (reconcile env t).1.backup.status = t.backup.status ∧
        (reconcile env t).1.eff.pipelineRuns = t.eff.pipelineRuns) ∧
    (∀ (env : CEEnv) (p : Pod), s.backup.deletionTimestamp = none →
        env.pod = some p → p.nodeName = env.nodeName → p.running = true →
        (reconcile env s).1.eff.pipelineRuns = s.eff.pipelineRuns + 1) := by
  refine ⟨runRecs_bound envs s hsched hphase hfiles, reconcileImm_noop, ?_⟩
  intro env p hdel hpod hnode hrun
  have hb : (s.backup.spec.schedule == "immediately") = true := by simp [hsched]
  have hp : (s.backup.status.phase != "") = false := by simp [hphase]
  have honode : (match env.pod with
      | none => false
      | some q => q.nodeName == env.nodeName) = true := by
    rw [hpod]
    simp [hnode]
  have hcpd : (s.backup.status.phase == "CompletedPodDeleted") = false := by
    simp [hphase]
  unfold reconcile
  by_cases hf : s.backup.finalizers.contains CheckpointBackupFinalizer = true
  · simp only [hf, if_true]
    simp only [hdel, Option.isSome_none, Bool.false_eq_true, if_false]
    simp only [hcpd, Bool.false_eq_true, if_false]
    simp only [honode, Bool.not_true, Bool.false_eq_true, if_false]
    unfold reconcileNormal
    dsimp only
    simp only [hb, if_true, hp, Bool.false_eq_true, if_false]
    exact performCheckpoint_runs_ready env s p hphase hpod hrun
  · simp only [hf, Bool.false_eq_true, if_false]
    simp only [hdel, Option.isSome_none, Bool.false_eq_true, if_false]
    simp only [hcpd, Bool.false_eq_true, if_false]
    simp only [honode, Bool.not_true, Bool.false_eq_true, if_false]
    unfold reconcileNormal
    dsimp only
    simp only [hb, if_true, hp, Bool.false_eq_true, if_false]
    exact performCheckpoint_runs_ready env _ p hphase hpod hrun

/-- Claim C3, witness: two reconciles of a fresh immediate request on the
owning node run the pipeline exactly once. -/
theorem c3_immediately_once_witness :
    sFreshFin.backup.spec.schedule = "immediately" ∧
    sFreshFin.backup.status.phase = "" ∧
    (runRecs sFreshFin [envOk, envOk]).eff.pipelineRuns ≤
      sFreshFin.eff.pipelineRuns + 1 ∧
    (reconcile envOk sFreshFin).1.eff.pipelineRuns =
      sFreshFin.eff.pipelineRuns + 1 :=
  ⟨rfl, rfl,
   (c3_immediately_once [envOk, envOk] sFreshFin rfl rfl rfl).1,
   (c3_immediately_once [] sFreshFin rfl rfl rfl).2.2 envOk podW rfl rfl rfl rfl⟩

/-- Claim C1, witness for the amended theorem: the pod of `sFreshFin` is on
another node and the finalizer is already present, so nothing is written. -/
theorem c1_amended_witness :
    sFreshFin.backup.deletionTimestamp = none ∧
    envAway.pod.map Pod.nodeName ≠ some envAway.nodeName ∧
    (reconcile envAway sFreshFin).1.backup.status = sFreshFin.backup.status ∧
    (reconcile envAway sFreshFin).1.eff.statusWrites =
      sFreshFin.eff.statusWrites ∧
    (reconcile envAway sFreshFin).1.eff.metaWrites =
      if sFreshFin.backup.finalizers.contains CheckpointBackupFinalizer then
        sFreshFin.eff.metaWrites
      else sFreshFin.eff.metaWrites + 1 :=
  ⟨rfl, by decide,
   (c1_amended envAway sFreshFin rfl (by decide)).1,
   (c1_amended envAway sFreshFin rfl (by decide)).2.1,
   (c1_amended envAway sFreshFin rfl (by decide)).2.2.2.2.2.2⟩

/-! ## Claim C4 -/

/-- Claim C4: when `stopPod` is set and the per-container loop succeeds, a
successful pod deletion removes the cron entry, marks the pod deleted and
ends in phase `CompletedPodDeleted`; a failed pod deletion ends in phase
`CompletedWithError` with the recorded checkpoint files and built images of
the loop kept and the pod not deleted. -/
theorem c4_stop_pod (env : CEEnv) (s s1 : RState) (pod : Pod)
    (hterm : (s.backup.status.phase == "Completed" ||
              s.backup.status.phase == "CompletedPodDeleted" ||
              s.backup.status.phase == "CompletedWithError") = false)
    (hprog : (s.backup.status.phase == "Checkpointing" ||
              s.backup.status.phase == "Checkpointed" ||
              s.backup.status.phase == "ImageBuilding" ||
              s.backup.status.phase == "ImageBuilt" ||
              s.backup.status.phase == "ImagePushing" ||
              s.backup.status.phase == "ImagePushed") = false)
    (hstop : s.backup.spec.stopPod = some true)
    (hpod : env.pod = some pod) (hrun : pod.running = true)
    (hloop : processContainers env (markRun s) pod
        (containersToProcess s.backup pod) = (s1, Except.ok ())) :
    ((env.deletePodResult = Except.ok () →
       (performCheckpoint env s).1.backup.status.phase = "CompletedPodDeleted" ∧
       (performCheckpoint env s).1.eff.podDeleted = true ∧
       backupKey s.backup ∉ (performCheckpoint env s).1.jobs) ∧
     (∀ e, env.deletePodResult = Except.error e →
       (performCheckpoint env s).1.backup.status.phase = "CompletedWithError" ∧
       (performCheckpoint env s).1.backup.status.checkpointFiles =
         s1.backup.status.checkpointFiles ∧
       (performCheckpoint env s).1.backup.status.builtImages =
         s1.backup.status.builtImages ∧
       (performCheckpoint env s).1.eff.podDeleted = s.eff.podDeleted)) := by
  have hcc := ccCore_processContainers env pod
    (containersToProcess s.backup pod) (markRun s)
  rw [hloop] at hcc
  have hspec : s1.backup.spec = s.backup.spec := hcc.2.2.1
  have hname : s1.backup.name = s.backup.name := hcc.1
  have hns : s1.backup.ns = s.backup.ns := hcc.2.1
  have hpd : s1.eff.podDeleted = s.eff.podDeleted := hcc.2.2.2.2.2.2.2.1
  unfold performCheckpoint
  simp only [hterm, Bool.false_eq_true, if_false, hprog]
  rw [hpod]
  dsimp only
  simp only [hrun, Bool.not_true, Bool.false_eq_true, if_false]
  rw [hloop]
  dsimp only
  have hstop' : shouldStopPod (updatePhase s1 "Completed"
      "All containers checkpointed successfully").backup = true := by
    simp [shouldStopPod, updatePhase, hspec, hstop]
  simp only [hstop', if_true]
  constructor
  · intro hok
    rw [hok]
    dsimp only
    refine ⟨by simp [updatePhase], by simp [updatePhase], ?_⟩
    intro hmem
    simp only [updatePhase] at hmem
    rw [List.mem_filter] at hmem
    have h2 := hmem.2
    simp [backupKey, hname, hns] at h2
  · intro e herr
    rw [herr]
    dsimp only
    exact ⟨by simp [updatePhase], by simp [updatePhase],
      by simp [updatePhase], by simp [updatePhase, hpd]⟩

/-- Claim C4, witness: a one-container `stopPod` request with a succeeding
environment ends in `CompletedPodDeleted` with the scheduler entry removed. -/
theorem c4_stop_pod_witness :
    envOk.deletePodResult = Except.ok () ∧
    (performCheckpoint envOk sStop).1.backup.status.phase =
      "CompletedPodDeleted" ∧
    (performCheckpoint envOk sStop).1.eff.podDeleted = true ∧
    backupKey sStop.backup ∉ (performCheckpoint envOk sStop).1.jobs :=
  have h := (c4_stop_pod envOk sStop
      (processContainers envOk (markRun sStop) podW
        (containersToProcess sStop.backup podW)).1
      podW rfl rfl rfl rfl rfl rfl).1 rfl
  ⟨rfl, h.1, h.2.1, h.2.2⟩

/-! ## Claim C5 -/

/-- Claim C5: when a registry is configured and the push fails, the phase
becomes `Failed` with the push error in the message, no built-image entry is
recorded for the container, the on-disk artifact is not deleted, and the
error is surfaced to the caller. -/
theorem c5_push_failure (env : CEEnv) (s : RState) (pod : Pod)
    (c : ContainerSpec) (reg rc : Registry) (p bi em : String)
    (hfiles : s.backup.status.checkpointFiles = [])
    (hreg : s.backup.spec.registry = some reg)
    (hrc : env.registryClient = some rc)
    (hck : env.checkpointResult c.name = .ok p)
    (hdisk : env.diskFiles.contains (fullPath p) = true)
    (hbase : ccBaseImage pod c = .ok bi)
    (hbuild : env.buildResult (resolveImageName s.backup c env.now) = .ok ())
    (hpush : pushImage env rc (resolveImageName s.backup c env.now) =
      .error em) :
    (checkpointContainer env s pod c).1.backup.status.phase = "Failed" ∧
    (checkpointContainer env s pod c).1.backup.status.message =
      "Failed to push image: " ++ em ∧
    (checkpointContainer env s pod c).1.backup.status.builtImages =
      s.backup.status.builtImages ∧
    (checkpointContainer env s pod c).1.eff.deletedFiles = s.eff.deletedFiles ∧
    (checkpointContainer env s pod c).2 =
      .error ("failed to push checkpoint image: " ++ em) := by
  have hnone : getCheckpointFilePath s.backup c.name = none := by
    simp [getCheckpointFilePath, hfiles]
  unfold checkpointContainer
  rw [hnone]
  unfold ccCreateThen
  dsimp only
  rw [hck]
  dsimp only
  unfold ccAfterPath
  dsimp only
  rw [show verifyPath env c.name p = .ok p from by
    simp only [verifyPath, hdisk, eq_self_iff_true, if_true]]
  dsimp only
  rw [hbase]
  dsimp only
  simp only [resolveImageName, updatePhase, recordCheckpointFile, hfiles,
    List.any_nil, Bool.false_eq_true, if_false, hreg, Option.isNone_some,
    Bool.false_or] at hbuild hpush ⊢
  simp only [buildCheckpointImage, hdisk, if_true]
  rw [hbuild]
  dsimp only
  simp only [hrc]
  rw [hpush]
  dsimp only
  exact ⟨rfl, rfl, rfl, rfl, rfl⟩

/-- Claim C5, witness: a concrete failing push leaves phase `Failed`, no
built-image entry and no artifact deletion. -/
theorem c5_push_failure_witness :
    envPushFail.pushCmdResult "reg-img:1" = Except.error "exit status 1" ∧
    (checkpointContainer envPushFail sRegistry podW
        { name := "web", image := "reg-img:1" }).1.backup.status.phase =
      "Failed" ∧
    (checkpointContainer envPushFail sRegistry podW
        { name := "web", image := "reg-img:1" }).1.backup.status.builtImages =
      sRegistry.backup.status.builtImages ∧
    (checkpointContainer envPushFail sRegistry podW
        { name := "web", image := "reg-img:1" }).1.eff.deletedFiles =
      sRegistry.eff.deletedFiles :=
  have h := c5_push_failure envPushFail sRegistry podW
    { name := "web", image := "reg-img:1" } regW regW
    "checkpoint-t_app-0-web-1.tar" "nginx:1.25"
    "failed to push image reg-img:1 to reg.example/reg-img:1: exit status 1"
    rfl rfl rfl rfl rfl rfl rfl (by rfl)
  ⟨rfl, h.1, h.2.2.1, h.2.2.2.1⟩

theorem pushAttempts_ccAfterPath (env : CEEnv) (s : RState) (pod : Pod)
    (c : ContainerSpec) (cp : String)
    (hreg : s.backup.spec.registry = none) :
    (ccAfterPath env s pod c cp).1.eff.pushAttempts = s.eff.pushAttempts := by
  unfold ccAfterPath ccFinish
  dsimp only
  repeat' split
  all_goals
    simp_all [updatePhase, recordCheckpointFile, recordBuiltImage,
      deleteCheckpointFile, apply_ite]

theorem pushAttempts_ccCreateThen (env : CEEnv) (s : RState) (pod : Pod)
    (c : ContainerSpec) (hreg : s.backup.spec.registry = none) :
    (ccCreateThen env s pod c).1.eff.pushAttempts = s.eff.pushAttempts := by
  unfold ccCreateThen
  dsimp only
  split
  · simp [updatePhase]
  · refine Eq.trans (pushAttempts_ccAfterPath _ _ _ _ _ ?_) ?_
    · simp [updatePhase, recordCheckpointFile, apply_ite, hreg]
    · simp [updatePhase, recordCheckpointFile, apply_ite]

/-! ## Claim C6 -/

/-- Claim C6, counterexample: with no registry configured, a request-supplied
image is ignored and the synthesized localhost name is used instead, so the
supplied image is not used "regardless of whether a registry is
configured". -/
theorem c6_counterexample :
    backupNoRegImg.spec.registry = none ∧
    resolveImageName backupNoRegImg { name := "web", image := "custom:1" }
      "20250101-000000" ≠ "custom:1" ∧
    resolveImageName backupNoRegImg { name := "web", image := "custom:1" }
      "20250101-000000" = "localhost/checkpoint-app-0-web:20250101-000000" :=
  ⟨rfl, by decide, rfl⟩

/-- Claim C6, amended: the request-supplied image is used exactly when a
registry is configured and the supplied image is nonempty; otherwise the
synthesized `localhost/checkpoint-{pod}-{container}:{timestamp}` name is
used; and with no registry configured `checkpointContainer` never attempts a
push. -/
theorem c6_amended :
    (∀ (b : Backup) (c : ContainerSpec) (now : String),
       (b.spec.registry.isSome = true → c.image ≠ "" →
          resolveImageName b c now = c.image) ∧
       (b.spec.registry = none ∨ c.image = "" →
          resolveImageName b c now =
            "localhost/checkpoint-" ++ b.spec.podRef.name ++ "-" ++ c.name ++
              ":" ++ now)) ∧
    (∀ (env : CEEnv) (s : RState) (pod : Pod) (c : ContainerSpec),
       s.backup.spec.registry = none →
       (checkpointContainer env s pod c).1.eff.pushAttempts =
         s.eff.pushAttempts) := by
  constructor
  · intro b c now
    constructor
    · intro hsome hne
      unfold resolveImageName
      rw [if_neg]
      simp [Option.isNone_iff_eq_none, hne]
      intro hcon
      rw [hcon] at hsome
      simp at hsome
    · intro h
      unfold resolveImageName
      rw [if_pos]
      rcases h with h | h
      · simp [h]
      · simp [h]
  · intro env s pod c hreg
    unfold checkpointContainer
    split
    · split
      · exact pushAttempts_ccAfterPath env s pod c _ hreg
      · split
        · rfl
        · exact pushAttempts_ccCreateThen env s pod c hreg
    · exact pushAttempts_ccCreateThen env s pod c hreg

/-- Claim C6, witness for the amended theorem at concrete inputs. -/
theorem c6_amended_witness :
    sRegistry.backup.spec.registry.isSome = true ∧
    resolveImageName sRegistry.backup { name := "web", image := "reg-img:1" }
      "20250101-000000" = "reg-img:1" ∧
    (checkpointContainer envOk sFreshFin podW
        { name := "web", image := "" }).1.eff.pushAttempts =
      sFreshFin.eff.pushAttempts :=
  ⟨rfl,
   (c6_amended.1 sRegistry.backup { name := "web", image := "reg-img:1" }
      "20250101-000000").1 rfl (by decide),
   c6_amended.2 envOk sFreshFin podW { name := "web", image := "" } rfl⟩

end SMO
